import Mathlib

set_option maxRecDepth 2000

/-!
Verification development for the `number_analyzer` command-line utility
(`src/scripts/number_analyzer.cpp`).

Modelling conventions:
* Finite `double` values are idealised as exact rationals (`ℚ`); comparisons,
  sorting and index selection on doubles are exact, so order-statistic claims
  transfer directly.  Machine `sqrt` is modelled by the computable `Rat.sqrt`
  (a nonnegative stand-in; only nonnegativity of the result is used).
* `std::stod` is modelled with its longest-valid-prefix semantics for the
  decimal syntax (optional sign, digits with optional decimal point, optional
  exponent), raising out-of-range when the exact value exceeds the largest
  finite double.  The hexadecimal, `inf`/`nan` forms and underflow-to-ERANGE
  are outside the rational value domain and not modelled.
* `std::getline(ss, tok, ',')` fails (and the parse loop stops) as soon as no
  character at all can be extracted, so an empty input yields no token and a
  trailing comma yields no final empty token; `tokenize` reproduces exactly
  this loop.
* For the sign-analysis loop, whose behaviour on NaN is claim-relevant, the
  double domain is modelled by `DVal` (finite rational, signed infinity, NaN)
  with IEEE comparison semantics, and the counting loop is written once,
  generically in the two comparison predicates, exactly following the
  `if / else if / else` chain of the source.
-/

/-- Whitespace set used by the C++ trim: `find_first_not_of(" \t\r\n")`. -/
def isTrimWS (c : Char) : Bool :=
  c = ' ' || c = '\t' || c = '\r' || c = '\n'

/-- Whitespace skipped by `strtod` before the number (C `isspace`). -/
def isSpaceC (c : Char) : Bool :=
  c = ' ' || c = '\t' || c = '\n' || c = '\x0b' || c = '\x0c' || c = '\r'

/-- Trim of the source: if every character is in the trim set
(`find_first_not_of` returns `npos`, which includes the empty token) the
token is left unchanged; otherwise leading and trailing trim-whitespace is
removed (`substr(start, end - start + 1)`). -/
def trimTok (cs : List Char) : List Char :=
  if cs.all isTrimWS then cs
  else ((cs.dropWhile isTrimWS).reverse.dropWhile isTrimWS).reverse

/-- One pass of the `while (getline(ss, number, ','))` loop, with the
characters still in the stream and the (reversed) characters read so far.
Reading stops at end of input (emitting the final token) and `getline`
fails — ending the loop — exactly when the stream is empty at the start of
a read, which happens after a trailing delimiter. -/
def getlineAux : List Char → List Char → List (List Char)
  | [], acc => [acc.reverse]
  | [','], acc => [acc.reverse]
  | ',' :: c :: cs, acc => acc.reverse :: getlineAux (c :: cs) []
  | c :: cs, acc => getlineAux cs (c :: acc)

/-- Token list produced by the `getline` loop on the whole input. -/
def tokenize (s : String) : List String :=
  match s.data with
  | [] => []
  | cs => (getlineAux cs []).map String.mk

/-- Value of a digit string, most significant first. -/
def digitsVal (ds : List Char) : ℕ :=
  ds.foldl (fun a c => 10 * a + (c.toNat - '0'.toNat)) 0

/-- Largest finite double, `(2^53 - 1) * 2^971`, as an exact rational,
written as an integer literal so that it evaluates without deep recursion. -/
def maxDouble : ℚ := mkRat 179769313486231570814527423731704356798070567525844996598917476803157260780028538760589558632766878171540458953514382464234321326889464182768467546703537516986049910576551282076245490090389328944075868508455133942304583236903222948165808559332123348274797826204144723168738177180919299881250404026184124858368 1

/-- Outcome of the modelled `std::stod` call. -/
inductive StodR where
  | ok (v : ℚ)
  | invalid
  | outOfRange
  deriving DecidableEq, Repr

/-- Model of `std::stod` on the decimal syntax: skip C whitespace, optional
sign, then the longest prefix of the form `digits [. digits]` or `. digits`,
optionally followed by an exponent `e|E [sign] digits` (the exponent is part
of the prefix only when at least one exponent digit follows).  No digits at
all in the significand raises `invalid_argument`; an exact value beyond the
largest finite double in magnitude raises `out_of_range`.  The exact value
`± digits(int ++ frac) · 10^exp / 10^|frac|` is built with `mkRat` so that
it stays kernel-computable. -/
def stodModel (s : List Char) : StodR :=
  let s1 := s.dropWhile isSpaceC
  let neg := s1.head? = some '-'
  let s2 := if s1.head? = some '-' || s1.head? = some '+' then s1.tail else s1
  let intD := s2.takeWhile Char.isDigit
  let s3 := s2.drop intD.length
  let fracD := if s3.head? = some '.' then s3.tail.takeWhile Char.isDigit else []
  let s4 := if s3.head? = some '.' then s3.tail.drop fracD.length else s3
  if intD.isEmpty && fracD.isEmpty then .invalid
  else
    let expVal : ℤ :=
      if s4.head? = some 'e' || s4.head? = some 'E' then
        let r1 := s4.tail
        let esgn : ℤ := if r1.head? = some '-' then -1 else 1
        let r2 := if r1.head? = some '-' || r1.head? = some '+' then r1.tail else r1
        let eD := r2.takeWhile Char.isDigit
        if eD.isEmpty then 0 else esgn * (digitsVal eD : ℤ)
      else 0
    let sgnI : ℤ := if neg then -1 else 1
    let mantN : ℕ := digitsVal (intD ++ fracD)
    let v : ℚ :=
      if 0 ≤ expVal then mkRat (sgnI * mantN * 10 ^ expVal.toNat) (10 ^ fracD.length)
      else mkRat (sgnI * mantN) (10 ^ (fracD.length + (-expVal).toNat))
    if v < -maxDouble || maxDouble < v then .outOfRange else .ok v

/-- Accumulator state of the analyzer: the `numbers` vector and the `errors`
string (messages concatenated with a trailing newline each). -/
structure AnalyzerState where
  numbers : List ℚ
  errors : String
  deriving DecidableEq, Repr

/-- Body of the parse loop for one token: trim, call `stod`, and either
append the value or append the matching diagnostic built from the trimmed
token. -/
def processToken (st : AnalyzerState) (tok : String) : AnalyzerState :=
  let t := trimTok tok.data
  match stodModel t with
  | .ok v => ⟨st.numbers ++ [v], st.errors⟩
  | .invalid => ⟨st.numbers, st.errors ++ "Invalid number: " ++ String.mk t ++ "\n"⟩
  | .outOfRange => ⟨st.numbers, st.errors ++ "Number out of range: " ++ String.mk t ++ "\n"⟩

/-- State after `NumberAnalyzer::parse` has consumed the whole input. -/
def parseState (input : String) : AnalyzerState :=
  (tokenize input).foldl processToken ⟨[], ""⟩

/-- Return value of `parse`: `!numbers.empty()`. -/
def parseOk (input : String) : Bool :=
  !(parseState input).numbers.isEmpty

/-- Ascending sort (`std::sort` on a copy), as insertion sort over `≤`. -/
def sortAsc (xs : List ℚ) : List ℚ :=
  xs.insertionSort (· ≤ ·)

/-- Sum loop of `calculateSum`. -/
def calculateSum (xs : List ℚ) : ℚ :=
  xs.foldl (· + ·) 0

/-- Average with the empty-list guard returning `0.0`. -/
def calculateAverage (xs : List ℚ) : ℚ :=
  if xs.isEmpty then 0 else calculateSum xs / xs.length

/-- Median: sorted copy; even count averages the two middle elements, odd
count takes the middle one. -/
def calculateMedian (xs : List ℚ) : ℚ :=
  if xs.isEmpty then 0
  else
    let sorted := sortAsc xs
    let size := sorted.length
    if size % 2 = 0 then (sorted.getD (size / 2 - 1) 0 + sorted.getD (size / 2) 0) / 2
    else sorted.getD (size / 2) 0

/-- Population standard deviation: square root of the mean squared deviation
from the average (divisor = count), with machine `sqrt` modelled by
`Rat.sqrt`. -/
def calculateStdDev (xs : List ℚ) : ℚ :=
  if xs.isEmpty then 0
  else
    let avg := calculateAverage xs
    let sumSquareDiff := xs.foldl (fun a num => a + (num - avg) * (num - avg)) 0
    Rat.sqrt (sumSquareDiff / xs.length)

/-- Scan of `findMode` over the tail of the sorted list, carrying the
previous element, the current run count, and the best mode/count so far.
The mode is updated exactly when the current count strictly exceeds the
maximum so far. -/
def modeLoop : ℚ → ℕ → ℚ → ℕ → List ℚ → ℚ × ℕ
  | _, _, mode, maxCount, [] => (mode, maxCount)
  | prev, currentCount, mode, maxCount, x :: rest =>
    if x = prev then
      if currentCount + 1 > maxCount then
        modeLoop x (currentCount + 1) x (currentCount + 1) rest
      else
        modeLoop x (currentCount + 1) mode maxCount rest
    else
      modeLoop x 1 mode maxCount rest

/-- Mode of the list: `0.0` when empty, else the scan started at the head of
the sorted copy with all counters at `1`. -/
def findMode (xs : List ℚ) : ℚ :=
  match sortAsc xs with
  | [] => 0
  | y :: ys => (modeLoop y 1 y 1 ys).1

/-- Quartiles: degenerate `(0,0,0)` below four elements, otherwise the
sorted elements at indices `n/4`, `n/2`, `3n/4`. -/
def calculateQuartiles (xs : List ℚ) : List ℚ :=
  if xs.length < 4 then [0, 0, 0]
  else
    let sorted := sortAsc xs
    let size := xs.length
    [sorted.getD (size / 4) 0, sorted.getD (size / 2) 0, sorted.getD (3 * size / 4) 0]

/-- Value of `*min_element` over a nonempty list (`0` guards the unused
empty case). -/
def minVal (xs : List ℚ) : ℚ :=
  match xs with
  | [] => 0
  | y :: ys => ys.foldl min y

/-- Value of `*max_element` over a nonempty list. -/
def maxVal (xs : List ℚ) : ℚ :=
  match xs with
  | [] => 0
  | y :: ys => ys.foldl max y

/-- Sign-analysis loop of `generateReport`, written once for any value type
with the two strict comparisons against zero, following the source's
`if (num > 0) ... else if (num < 0) ... else ...` chain.  Returns
`(positiveCount, negativeCount, zeroCount)`. -/
def signCounts {α : Type} (gt0 lt0 : α → Bool) (xs : List α) : ℕ × ℕ × ℕ :=
  xs.foldl
    (fun c num =>
      if gt0 num then (c.1 + 1, c.2.1, c.2.2)
      else if lt0 num then (c.1, c.2.1 + 1, c.2.2)
      else (c.1, c.2.1, c.2.2 + 1))
    (0, 0, 0)

/-- Double value for the sign analysis: finite (idealised rational), signed
infinity, or NaN. -/
inductive DVal where
  | fin (q : ℚ)
  | inf (neg : Bool)
  | nan
  deriving DecidableEq, Repr

/-- IEEE `> 0` on `DVal`: false on NaN. -/
def DVal.gt0 : DVal → Bool
  | .fin q => decide (0 < q)
  | .inf neg => !neg
  | .nan => false

/-- IEEE `< 0` on `DVal`: false on NaN. -/
def DVal.lt0 : DVal → Bool
  | .fin q => decide (q < 0)
  | .inf neg => neg
  | .nan => false

/-- Four-digit zero-padded decimal rendering of `k < 10000`. -/
def padZeros4 (k : ℕ) : String :=
  let d := toString k
  String.mk (List.replicate (4 - d.length) '0') ++ d

/-- Fixed-point rendering with 4 fractional digits (`fixed << setprecision(4)`),
rounding the exact rational to the nearest 1/10000 (the sign is taken from
the rounded value). -/
def fmtFixed4 (q : ℚ) : String :=
  let n : ℤ := round (q * 10000)
  (if n < 0 then "-" else "") ++ toString (n.natAbs / 10000) ++ "." ++ padZeros4 (n.natAbs % 10000)

/-- Expression printed as `Variance` in the report: the standard deviation
multiplied by itself (`calculateStdDev() * calculateStdDev()`). -/
def reportVariance (xs : List ℚ) : ℚ :=
  calculateStdDev xs * calculateStdDev xs

/-- Expression printed as `IQR` in the report: `quartiles[2] - quartiles[0]`. -/
def reportIQR (qs : List ℚ) : ℚ :=
  qs.getD 2 0 - qs.getD 0 0

/-- Five statistics sections of the report, rendered for a (nonempty)
number list in source order. -/
def reportBody (nums : List ℚ) : String :=
  let qs := calculateQuartiles nums
  let sc := signCounts (fun q : ℚ => decide (0 < q)) (fun q : ℚ => decide (q < 0)) nums
  "Basic Statistics:\n" ++ "  Count: " ++ toString nums.length ++ "\n" ++
      "  Sum: " ++ fmtFixed4 (calculateSum nums) ++ "\n" ++
      "  Average: " ++ fmtFixed4 (calculateAverage nums) ++ "\n" ++
      "  Median: " ++ fmtFixed4 (calculateMedian nums) ++ "\n" ++
      "  Mode: " ++ fmtFixed4 (findMode nums) ++ "\n\n" ++
      "Range Statistics:\n" ++ "  Minimum: " ++ fmtFixed4 (minVal nums) ++ "\n" ++
      "  Maximum: " ++ fmtFixed4 (maxVal nums) ++ "\n" ++
      "  Range: " ++ fmtFixed4 (maxVal nums - minVal nums) ++ "\n\n" ++
      "Dispersion Statistics:\n" ++
      "  Standard Deviation: " ++ fmtFixed4 (calculateStdDev nums) ++ "\n" ++
      "  Variance: " ++ fmtFixed4 (reportVariance nums) ++ "\n\n" ++
      "Quartile Analysis:\n" ++
      "  Q1 (25th percentile): " ++ fmtFixed4 (qs.getD 0 0) ++ "\n" ++
      "  Q2 (50th percentile): " ++ fmtFixed4 (qs.getD 1 0) ++ "\n" ++
      "  Q3 (75th percentile): " ++ fmtFixed4 (qs.getD 2 0) ++ "\n" ++
      "  IQR: " ++ fmtFixed4 (reportIQR qs) ++ "\n\n" ++
      "Sign Analysis:\n" ++ "  Positive: " ++ toString sc.1 ++ "\n" ++
      "  Negative: " ++ toString sc.2.1 ++ "\n" ++ "  Zero: " ++ toString sc.2.2 ++ "\n"

/-- Text block produced by `generateReport`: header, optional warnings,
either the no-numbers error or the five statistics sections. -/
def generateReport (st : AnalyzerState) : String :=
  let header := "Number Analysis Report\n" ++ "======================\n\n"
  let warn := if st.errors ≠ "" then "Warnings/Errors:\n" ++ st.errors ++ "\n" else ""
  if st.numbers.isEmpty then header ++ warn ++ "Error: No valid numbers parsed\n"
  else header ++ warn ++ reportBody st.numbers

/-- Method call on the analyzer state, made explicit: the returned state is
the object after the call.  `calculateSum` only reads `numbers`. -/
def calculateSumM (s : AnalyzerState) : ℚ × AnalyzerState :=
  (calculateSum s.numbers, s)

/-- Stateful view of `calculateAverage`. -/
def calculateAverageM (s : AnalyzerState) : ℚ × AnalyzerState :=
  (calculateAverage s.numbers, s)

/-- Stateful view of `calculateMedian`: the sort happens on a local copy, so
the object is returned unchanged. -/
def calculateMedianM (s : AnalyzerState) : ℚ × AnalyzerState :=
  (calculateMedian s.numbers, s)

/-- Stateful view of `calculateStdDev`. -/
def calculateStdDevM (s : AnalyzerState) : ℚ × AnalyzerState :=
  (calculateStdDev s.numbers, s)

/-- Stateful view of `findMode` (sort on a local copy). -/
def findModeM (s : AnalyzerState) : ℚ × AnalyzerState :=
  (findMode s.numbers, s)

/-- Stateful view of `calculateQuartiles` (sort on a local copy). -/
def calculateQuartilesM (s : AnalyzerState) : List ℚ × AnalyzerState :=
  (calculateQuartiles s.numbers, s)

/-- Stateful view of `generateReport`, threading the object state through
every method call in source order (`calculateStdDev` is called once for the
printed deviation and twice more for the variance product). -/
def generateReportM (s0 : AnalyzerState) : String × AnalyzerState :=
  let header := "Number Analysis Report\n" ++ "======================\n\n"
  let warn := if s0.errors ≠ "" then "Warnings/Errors:\n" ++ s0.errors ++ "\n" else ""
  if s0.numbers.isEmpty then (header ++ warn ++ "Error: No valid numbers parsed\n", s0)
  else
    let p1 := calculateSumM s0
    let p2 := calculateAverageM p1.2
    let p3 := calculateMedianM p2.2
    let p4 := findModeM p3.2
    let s4 := p4.2
    let minv := minVal s4.numbers
    let maxv := maxVal s4.numbers
    let p5 := calculateStdDevM s4
    let p6 := calculateStdDevM p5.2
    let p7 := calculateStdDevM p6.2
    let p8 := calculateQuartilesM p7.2
    let s8 := p8.2
    let qs := p8.1
    let sc := signCounts (fun q : ℚ => decide (0 < q)) (fun q : ℚ => decide (q < 0)) s8.numbers
    (header ++ warn ++
      "Basic Statistics:\n" ++ "  Count: " ++ toString s0.numbers.length ++ "\n" ++
      "  Sum: " ++ fmtFixed4 p1.1 ++ "\n" ++
      "  Average: " ++ fmtFixed4 p2.1 ++ "\n" ++
      "  Median: " ++ fmtFixed4 p3.1 ++ "\n" ++
      "  Mode: " ++ fmtFixed4 p4.1 ++ "\n\n" ++
      "Range Statistics:\n" ++ "  Minimum: " ++ fmtFixed4 minv ++ "\n" ++
      "  Maximum: " ++ fmtFixed4 maxv ++ "\n" ++
      "  Range: " ++ fmtFixed4 (maxv - minv) ++ "\n\n" ++
      "Dispersion Statistics:\n" ++
      "  Standard Deviation: " ++ fmtFixed4 p5.1 ++ "\n" ++
      "  Variance: " ++ fmtFixed4 (p6.1 * p7.1) ++ "\n\n" ++
      "Quartile Analysis:\n" ++
      "  Q1 (25th percentile): " ++ fmtFixed4 (qs.getD 0 0) ++ "\n" ++
      "  Q2 (50th percentile): " ++ fmtFixed4 (qs.getD 1 0) ++ "\n" ++
      "  Q3 (75th percentile): " ++ fmtFixed4 (qs.getD 2 0) ++ "\n" ++
      "  IQR: " ++ fmtFixed4 (qs.getD 2 0 - qs.getD 0 0) ++ "\n\n" ++
      "Sign Analysis:\n" ++ "  Positive: " ++ toString sc.1 ++ "\n" ++
      "  Negative: " ++ toString sc.2.1 ++ "\n" ++
      "  Zero: " ++ toString sc.2.2 ++ "\n", s8)

/-- Observable outcome of one program run. -/
structure RunResult where
  exitCode : ℕ
  stdout : String
  stderr : String
  deriving DecidableEq, Repr

/-- Model of `main`: `argv` includes the program name, so a missing
positional argument means `argv.length < 2`.  On parse failure the errors go
to the diagnostic stream with exit 1; otherwise the report goes to standard
output with exit 0. -/
def mainFn (argv : List String) : RunResult :=
  if argv.length < 2 then
    ⟨1, "", "Usage: number_analyzer '<comma-separated-numbers>'\n"⟩
  else
    let input := argv.getD 1 ""
    let st := parseState input
    if st.numbers.isEmpty then ⟨1, "", "Error parsing input: " ++ st.errors⟩
    else ⟨0, generateReport st, ""⟩

/-- Maximal runs of equal adjacent values, as `(value, length)` pairs, of a
list read left to right. -/
def runs : List ℚ → List (ℚ × ℕ)
  | [] => []
  | x :: xs =>
    match runs xs with
    | [] => [(x, 1)]
    | (v, k) :: rest => if x = v then (v, k + 1) :: rest else (x, 1) :: (v, k) :: rest

/-- Greatest run length in a run list (`0` when there is no run). -/
def maxRunLen (rs : List (ℚ × ℕ)) : ℕ :=
  rs.foldr (fun r m => max r.2 m) 0

/-- Value of the first run whose length attains the maximum run length. -/
def firstMaxVal (rs : List (ℚ × ℕ)) : ℚ :=
  ((rs.find? (fun r => r.2 == maxRunLen rs)).getD (0, 0)).1

/-- Mode as the specification words it: among the consecutive runs of equal
values of the ascending sorted copy, the value of the earliest run of
maximal length. -/
def specMode (xs : List ℚ) : ℚ :=
  firstMaxVal (runs (sortAsc xs))

/-- Validity of a token as the specification words it: the whole trimmed
token is a decimal floating-point number — optional sign, digits with an
optional decimal point (at least one digit), and an optional exponent part
`e|E [sign] digits` that must reach the end of the token. -/
def specValidNumberToken (s : String) : Bool :=
  let s1 := s.data
  let s2 := if s1.head? = some '-' || s1.head? = some '+' then s1.tail else s1
  let intD := s2.takeWhile Char.isDigit
  let s3 := s2.drop intD.length
  let fracD := if s3.head? = some '.' then s3.tail.takeWhile Char.isDigit else []
  let s4 := if s3.head? = some '.' then s3.tail.drop fracD.length else s3
  if intD.isEmpty && fracD.isEmpty then false
  else
    match s4 with
    | [] => true
    | e :: r1 =>
      if e = 'e' || e = 'E' then
        let r2 := if r1.head? = some '-' || r1.head? = some '+' then r1.tail else r1
        !r2.isEmpty && r2.all Char.isDigit
      else false

/-- Run-level replay of the `findMode` scan: fold over the runs, replacing
the kept `(mode, maxCount)` pair whenever a run is strictly longer. -/
def chooseRuns : ℚ → ℕ → List (ℚ × ℕ) → ℚ
  | m, _, [] => m
  | m, M, (v, k) :: rest => if M < k then chooseRuns v k rest else chooseRuns m M rest

/-- Prepend `c` occurrences of `p` to a run list, merging with the first run
when its value is also `p`. -/
def consRunK (p : ℚ) (c : ℕ) : List (ℚ × ℕ) → List (ℚ × ℕ)
  | [] => [(p, c)]
  | (v, k) :: rest => if p = v then (p, c + k) :: rest else (p, c) :: (v, k) :: rest

/-! Helper lemmas about the ascending sort. -/

/-- The sorted copy is a permutation of the input. -/
lemma sortAsc_perm (xs : List ℚ) : (sortAsc xs).Perm xs :=
  List.perm_insertionSort _ xs

/-- The sorted copy is sorted for `≤`. -/
lemma sortAsc_sorted (xs : List ℚ) : (sortAsc xs).Sorted (· ≤ ·) :=
  List.sorted_insertionSort _ xs

/-- Sorting preserves the length. -/
lemma sortAsc_length (xs : List ℚ) : (sortAsc xs).length = xs.length :=
  List.length_insertionSort _ xs

/-- Two permutation-equivalent lists have the same sorted copy. -/
lemma sortAsc_eq_of_perm {xs ys : List ℚ} (h : xs.Perm ys) : sortAsc xs = sortAsc ys :=
  List.eq_of_perm_of_sorted (((sortAsc_perm xs).trans h).trans (sortAsc_perm ys).symm)
    (sortAsc_sorted xs) (sortAsc_sorted ys)

/-- C1 counterexample: on the empty input the delimited read fails before
producing any token, so parsing `""` leaves the ErrorLog empty — refuting
the claim that `""` yields a non-empty ErrorLog. -/
theorem parse_empty_input_errorlog_empty :
    parseState "" = ⟨[], ""⟩ ∧ (parseState "").errors = "" ∧ parseOk "" = false := by
  decide

/-- C1 (amended): every empty token read by the loop fails as an invalid
number, appending an `Invalid number: ` entry and no value; but an entirely
empty input yields no token at all (so ErrorLog stays empty and the parse
fails), and a trailing comma yields no final empty token.  `","` yields
exactly one empty token, so it fails with a one-entry ErrorLog, and empty
tokens from a leading comma or consecutive commas each log an entry. -/
theorem empty_token_policy :
    (∀ st : AnalyzerState,
      processToken st "" = ⟨st.numbers, st.errors ++ "Invalid number: \n"⟩) ∧
    tokenize "" = [] ∧ tokenize "1," = ["1"] ∧ tokenize ",1" = ["", "1"] ∧
    tokenize "1,,2" = ["1", "", "2"] ∧
    parseState "" = ⟨[], ""⟩ ∧ parseOk "" = false ∧
    parseState "," = ⟨[], "Invalid number: \n"⟩ ∧ parseOk "," = false ∧
    parseState ",1" = ⟨[1], "Invalid number: \n"⟩ ∧
    parseState "1,,2" = ⟨[1, 2], "Invalid number: \n"⟩ := by
  refine ⟨fun st => ?_, by decide, by decide, by decide, by decide, by decide, by decide,
    by decide, by decide, by decide, by decide⟩
  show (⟨st.numbers, st.errors ++ "Invalid number: " ++ "" ++ "\n"⟩ : AnalyzerState) =
    ⟨st.numbers, st.errors ++ "Invalid number: \n"⟩
  rw [String.append_empty, String.append_assoc]
  rfl

/-- C2 counterexample: the token `1x` is not a valid decimal floating-point
number as a whole, yet `stod` reads its longest valid prefix `1`, so the
parser appends the value 1 and records no error — refuting the claim that
invalid tokens add no value and log a diagnostic. -/
theorem trailing_garbage_token_accepted :
    specValidNumberToken "1x" = false ∧ processToken ⟨[], ""⟩ "1x" = ⟨[1], ""⟩ := by
  decide

/-- C2 (amended): per token the parser trims and then reads the longest
valid numeric prefix: if no numeric prefix exists the `Invalid number`
diagnostic (built from the trimmed token) is appended and no value is
added; if the prefix's exact value is out of double range the
`Number out of range` diagnostic is appended and no value is added; and a
value is appended exactly when the prefix parse succeeds in range. -/
theorem token_dispatch (st : AnalyzerState) (tok : String) :
    (stodModel (trimTok tok.data) = .invalid →
      processToken st tok =
        ⟨st.numbers, st.errors ++ "Invalid number: " ++ String.mk (trimTok tok.data) ++ "\n"⟩) ∧
    (stodModel (trimTok tok.data) = .outOfRange →
      processToken st tok =
        ⟨st.numbers,
          st.errors ++ "Number out of range: " ++ String.mk (trimTok tok.data) ++ "\n"⟩) ∧
    (∀ v, stodModel (trimTok tok.data) = .ok v →
      processToken st tok = ⟨st.numbers ++ [v], st.errors⟩) := by
  refine ⟨fun h => ?_, fun h => ?_, fun v h => ?_⟩ <;> simp [processToken, h]

set_option maxRecDepth 4000 in
/-- C2 witness: the three dispatch branches at the concrete tokens `abc`
(invalid), `1e400` (out of range) and `5` (valid). -/
theorem token_dispatch_witness :
    processToken ⟨[], ""⟩ "abc" = ⟨[], "Invalid number: abc\n"⟩ ∧
    processToken ⟨[], ""⟩ "1e400" = ⟨[], "Number out of range: 1e400\n"⟩ ∧
    processToken ⟨[], ""⟩ "5" = ⟨[5], ""⟩ := by
  refine ⟨((token_dispatch ⟨[], ""⟩ "abc").1 (by decide)).trans (by decide),
    ((token_dispatch ⟨[], ""⟩ "1e400").2.1 (by decide)).trans (by decide),
    ((token_dispatch ⟨[], ""⟩ "5").2.2 5 (by decide)).trans (by decide)⟩

/-- C4: below four elements the quartiles are the degenerate `(0, 0, 0)`
triple; for `n ≥ 4` the three indices `n/4`, `n/2`, `3n/4` are in bounds of
the sorted copy, the quartiles are exactly the sorted elements there, and
the reported IQR is Q3 minus Q1. -/
theorem calculateQuartiles_indexing (xs : List ℚ) :
    (xs.length < 4 → calculateQuartiles xs = [0, 0, 0]) ∧
    (4 ≤ xs.length →
      xs.length / 4 < (sortAsc xs).length ∧
      xs.length / 2 < (sortAsc xs).length ∧
      3 * xs.length / 4 < (sortAsc xs).length ∧
      calculateQuartiles xs = [(sortAsc xs).getD (xs.length / 4) 0,
        (sortAsc xs).getD (xs.length / 2) 0, (sortAsc xs).getD (3 * xs.length / 4) 0] ∧
      reportIQR (calculateQuartiles xs) =
        (sortAsc xs).getD (3 * xs.length / 4) 0 - (sortAsc xs).getD (xs.length / 4) 0) := by
  constructor
  · intro h
    unfold calculateQuartiles
    rw [if_pos h]
  · intro h
    have hl : (sortAsc xs).length = xs.length := sortAsc_length xs
    have heq : calculateQuartiles xs = [(sortAsc xs).getD (xs.length / 4) 0,
        (sortAsc xs).getD (xs.length / 2) 0, (sortAsc xs).getD (3 * xs.length / 4) 0] := by
      unfold calculateQuartiles
      rw [if_neg (by omega)]
    refine ⟨by omega, by omega, by omega, heq, ?_⟩
    rw [heq]
    rfl

/-- C4 witness: the degenerate triple at the three-element list and the
index form at a four-element list. -/
theorem calculateQuartiles_indexing_witness :
    calculateQuartiles [1, 2, 3] = [0, 0, 0] ∧ calculateQuartiles [4, 2, 1, 3] = [2, 3, 4] := by
  constructor
  · exact (calculateQuartiles_indexing [1, 2, 3]).1 (by decide)
  · have h := ((calculateQuartiles_indexing [4, 2, 1, 3]).2 (by decide)).2.2.2.1
    rw [h]
    decide

/-- C5: the standard deviation is always nonnegative, and the variance the
report prints is literally the standard deviation multiplied by itself. -/
theorem stdDev_nonneg_variance_square (xs : List ℚ) :
    0 ≤ calculateStdDev xs ∧ reportVariance xs = calculateStdDev xs * calculateStdDev xs := by
  refine ⟨?_, rfl⟩
  unfold calculateStdDev
  split
  · exact le_refl 0
  · exact Rat.sqrt_nonneg _

/-- C7: the median is invariant under permutation of the input list — the
sorted copies of permutation-equivalent lists coincide, so the selected
middle elements do as well. -/
theorem calculateMedian_perm_invariant (xs ys : List ℚ) (h : xs.Perm ys) :
    calculateMedian xs = calculateMedian ys := by
  have hs : sortAsc xs = sortAsc ys := sortAsc_eq_of_perm h
  have hl := h.length_eq
  have he : xs.isEmpty = ys.isEmpty := by
    cases xs <;> cases ys <;> simp_all
  unfold calculateMedian
  rw [hs, he]

/-- C7 witness: the median of `[1, 2]` and of its permutation `[2, 1]`
agree. -/
theorem calculateMedian_perm_invariant_witness :
    calculateMedian [1, 2] = calculateMedian [2, 1] :=
  calculateMedian_perm_invariant [1, 2] [2, 1] (by decide)

/-- C10: with the six values 4, 8, 15, 16, 23, 42 (even count ≥ 4) the
median averages the two middle elements to 15.5 while the reported Q2 is
the sorted element at index `n/2`, namely 16 — so the two reported center
values differ. -/
theorem median_q2_divergence :
    (∃ xs : List ℚ, xs.length % 2 = 0 ∧ 4 ≤ xs.length ∧
      calculateMedian xs ≠ (calculateQuartiles xs).getD 1 0) ∧
    calculateMedian [4, 8, 15, 16, 23, 42] = 31 / 2 ∧
    (calculateQuartiles [4, 8, 15, 16, 23, 42]).getD 1 0 = 16 := by
  have hm : calculateMedian [4, 8, 15, 16, 23, 42] = 31 / 2 := by
    have hs : sortAsc [4, 8, 15, 16, 23, 42] = [4, 8, 15, 16, 23, 42] := by decide
    unfold calculateMedian
    rw [hs]
    norm_num
  have hq : (calculateQuartiles [4, 8, 15, 16, 23, 42]).getD 1 0 = 16 := by decide
  refine ⟨⟨[4, 8, 15, 16, 23, 42], by decide, by decide, ?_⟩, hm, hq⟩
  rw [hm, hq]
  norm_num

/-- Characterisation of the sign-analysis fold from an arbitrary
accumulator: each component grows by the length of the matching filter. -/
lemma signCounts_foldl {α : Type} (gt0 lt0 : α → Bool) (xs : List α) (c : ℕ × ℕ × ℕ) :
    xs.foldl
      (fun c num =>
        if gt0 num then (c.1 + 1, c.2.1, c.2.2)
        else if lt0 num then (c.1, c.2.1 + 1, c.2.2)
        else (c.1, c.2.1, c.2.2 + 1)) c =
      (c.1 + (xs.filter gt0).length,
        c.2.1 + (xs.filter (fun a => !gt0 a && lt0 a)).length,
        c.2.2 + (xs.filter (fun a => !gt0 a && !lt0 a)).length) := by
  induction xs generalizing c with
  | nil => simp
  | cons a t ih =>
    rw [List.foldl_cons, ih]
    by_cases h1 : gt0 a <;> by_cases h2 : lt0 a <;>
      simp [List.filter_cons, h1, h2, Prod.ext_iff] <;> omega

/-- The three sign filters split every element exactly once. -/
lemma sign_filter_lengths {α : Type} (gt0 lt0 : α → Bool) (xs : List α) :
    (xs.filter gt0).length + (xs.filter (fun a => !gt0 a && lt0 a)).length +
      (xs.filter (fun a => !gt0 a && !lt0 a)).length = xs.length := by
  induction xs with
  | nil => simp
  | cons a t ih =>
    by_cases h1 : gt0 a <;> by_cases h2 : lt0 a <;>
      simp [List.filter_cons, h1, h2] <;> omega

/-- C9: the sign-analysis loop partitions the list — the three counters are
the sizes of the `> 0`, `< 0` and remaining filters and sum to the length —
and a NaN value, on which both strict comparisons are false, is counted in
the Zero bucket. -/
theorem signCounts_partition_nan (xs : List DVal) :
    (signCounts DVal.gt0 DVal.lt0 xs).1 = (xs.filter DVal.gt0).length ∧
    (signCounts DVal.gt0 DVal.lt0 xs).2.1 =
      (xs.filter (fun v => !DVal.gt0 v && DVal.lt0 v)).length ∧
    (signCounts DVal.gt0 DVal.lt0 xs).2.2 =
      (xs.filter (fun v => !DVal.gt0 v && !DVal.lt0 v)).length ∧
    (signCounts DVal.gt0 DVal.lt0 xs).1 + (signCounts DVal.gt0 DVal.lt0 xs).2.1 +
      (signCounts DVal.gt0 DVal.lt0 xs).2.2 = xs.length ∧
    DVal.gt0 .nan = false ∧ DVal.lt0 .nan = false ∧
    signCounts DVal.gt0 DVal.lt0 (xs ++ [DVal.nan]) =
      ((signCounts DVal.gt0 DVal.lt0 xs).1, (signCounts DVal.gt0 DVal.lt0 xs).2.1,
        (signCounts DVal.gt0 DVal.lt0 xs).2.2 + 1) := by
  have hgo := signCounts_foldl DVal.gt0 DVal.lt0 xs (0, 0, 0)
  have hsum := sign_filter_lengths DVal.gt0 DVal.lt0 xs
  have h1 : (signCounts DVal.gt0 DVal.lt0 xs).1 = (xs.filter DVal.gt0).length := by
    unfold signCounts
    rw [hgo]
    simp
  have h2 : (signCounts DVal.gt0 DVal.lt0 xs).2.1 =
      (xs.filter (fun v => !DVal.gt0 v && DVal.lt0 v)).length := by
    unfold signCounts
    rw [hgo]
    simp
  have h3 : (signCounts DVal.gt0 DVal.lt0 xs).2.2 =
      (xs.filter (fun v => !DVal.gt0 v && !DVal.lt0 v)).length := by
    unfold signCounts
    rw [hgo]
    simp
  refine ⟨h1, h2, h3, by omega, rfl, rfl, ?_⟩
  unfold signCounts
  rw [List.foldl_append]
  rfl

/-- C8: every statistics method and the report generator leave the analyzer
state untouched (the sorts act on local copies), the threaded report equals
the pure one, and regenerating the report from the post-generation state
reproduces the identical text. -/
theorem analyzer_state_readonly (s : AnalyzerState) :
    (calculateSumM s).2 = s ∧ (calculateAverageM s).2 = s ∧ (calculateMedianM s).2 = s ∧
    (calculateStdDevM s).2 = s ∧ (findModeM s).2 = s ∧ (calculateQuartilesM s).2 = s ∧
    (generateReportM s).2 = s ∧ (generateReportM s).1 = generateReport s ∧
    (generateReportM ((generateReportM s).2)).1 = (generateReportM s).1 := by
  have h2 : (generateReportM s).2 = s := by
    by_cases hc : s.numbers.isEmpty <;>
      simp [generateReportM, calculateSumM, calculateAverageM, calculateMedianM,
        findModeM, calculateStdDevM, calculateQuartilesM, hc]
  have h1 : (generateReportM s).1 = generateReport s := by
    by_cases hc : s.numbers.isEmpty <;>
      simp [generateReportM, generateReport, reportBody, reportVariance, reportIQR,
        calculateSumM, calculateAverageM, calculateMedianM, findModeM, calculateStdDevM,
        calculateQuartilesM, hc, String.append_assoc]
  exact ⟨rfl, rfl, rfl, rfl, rfl, rfl, h2, h1, by rw [h2]⟩

/-- C6: with the positional argument present, the program exits 1 with the
accumulated diagnostics on the error stream exactly when no number was
parsed; otherwise it exits 0 printing the full report on standard output,
and a non-empty ErrorLog appears verbatim inside the report text. -/
theorem mainFn_exit_report (prog input : String) :
    ((mainFn [prog, input]).exitCode = 1 ↔ (parseState input).numbers = []) ∧
    ((parseState input).numbers = [] →
      mainFn [prog, input] = ⟨1, "", "Error parsing input: " ++ (parseState input).errors⟩) ∧
    ((parseState input).numbers ≠ [] →
      mainFn [prog, input] = ⟨0, generateReport (parseState input), ""⟩) ∧
    ((parseState input).numbers ≠ [] → (parseState input).errors ≠ "" →
      ∃ pre post, (generateReport (parseState input)).data =
        pre ++ (parseState input).errors.data ++ post) := by
  cases hns : (parseState input).numbers with
  | nil =>
    have hmain : mainFn [prog, input] =
        ⟨1, "", "Error parsing input: " ++ (parseState input).errors⟩ := by
      simp [mainFn, hns]
    refine ⟨by simp [hmain], fun _ => hmain, fun hne => absurd rfl hne,
      fun hne _ => absurd rfl hne⟩
  | cons a t =>
    have hne : (parseState input).numbers ≠ [] := by
      rw [hns]
      exact List.cons_ne_nil a t
    have hmain : mainFn [prog, input] = ⟨0, generateReport (parseState input), ""⟩ := by
      simp [mainFn, hns]
    refine ⟨by simp [hmain], fun h => absurd h (List.cons_ne_nil a t), fun _ => hmain,
      fun _ herr => ?_⟩
    have hie : (parseState input).numbers.isEmpty = false := by
      rw [hns]
      rfl
    refine ⟨("Number Analysis Report\n" ++ "======================\n\n" ++
      "Warnings/Errors:\n").data, ("\n" ++ reportBody (parseState input).numbers).data, ?_⟩
    simp [generateReport, hie, herr, String.data_append, List.append_assoc]

/-- C6 witness: a run whose input parses to nothing exits 1 with the
diagnostics, and a run with one valid and one invalid token exits 0 with
the warnings embedded in the report. -/
theorem mainFn_exit_report_witness :
    mainFn ["number_analyzer", "abc"] =
      ⟨1, "", "Error parsing input: " ++ (parseState "abc").errors⟩ ∧
    mainFn ["number_analyzer", "1,x"] = ⟨0, generateReport (parseState "1,x"), ""⟩ ∧
    ∃ pre post, (generateReport (parseState "1,x")).data =
      pre ++ (parseState "1,x").errors.data ++ post :=
  ⟨(mainFn_exit_report "number_analyzer" "abc").2.1 (by decide),
    (mainFn_exit_report "number_analyzer" "1,x").2.2.1 (by decide),
    (mainFn_exit_report "number_analyzer" "1,x").2.2.2 (by decide) (by decide)⟩

/-- Unfolding `runs` on a cons as a prepend of one occurrence. -/
lemma runs_cons (p : ℚ) (xs : List ℚ) : runs (p :: xs) = consRunK p 1 (runs xs) := by
  cases hr : runs xs with
  | nil => simp [runs, consRunK, hr]
  | cons r rest =>
    obtain ⟨v, k⟩ := r
    by_cases hpv : p = v
    · subst hpv
      simp [runs, consRunK, hr, Nat.add_comm]
    · simp [runs, consRunK, hr, hpv]

/-- Merging one more occurrence into an already-prepended run. -/
lemma consRunK_merge (p : ℚ) (c : ℕ) (rs : List (ℚ × ℕ)) :
    consRunK p c (consRunK p 1 rs) = consRunK p (c + 1) rs := by
  cases rs with
  | nil => simp [consRunK]
  | cons r rest =>
    obtain ⟨v, k⟩ := r
    by_cases hpv : p = v
    · subst hpv
      simp [consRunK, Prod.ext_iff]
      omega
    · simp [consRunK, hpv]

/-- Prepending a run of a different value leaves it as an explicit head. -/
lemma consRunK_ne (p x : ℚ) (hpx : p ≠ x) (c : ℕ) (rs : List (ℚ × ℕ)) :
    consRunK p c (consRunK x 1 rs) = (p, c) :: consRunK x 1 rs := by
  cases rs with
  | nil => simp [consRunK, hpx]
  | cons r rest =>
    obtain ⟨v, k⟩ := r
    by_cases hxv : x = v
    · subst hxv
      simp [consRunK, hpx]
    · simp [consRunK, hxv, hpx]

/-- Once a run strictly beats the kept maximum, the kept pair is replaced by
that run's own value and length, whatever was kept before. -/
lemma chooseRuns_enter (m : ℚ) (M : ℕ) (p : ℚ) (c : ℕ) (rs : List (ℚ × ℕ)) (h : M < c) :
    chooseRuns m M (consRunK p c rs) = chooseRuns p c (consRunK p c rs) := by
  cases rs with
  | nil => simp [consRunK, chooseRuns, h]
  | cons r rest =>
    obtain ⟨v, k⟩ := r
    by_cases hpv : p = v
    · subst hpv
      by_cases hk : c < c + k
      · have hM : M < c + k := by omega
        simp [consRunK, chooseRuns, hk, hM]
      · have hk0 : c + k = c := by omega
        simp [consRunK, chooseRuns, hk, hk0, h]
    · simp [consRunK, chooseRuns, hpv, h]

/-- The run fold computes the value of the first run of maximal length when
some run beats the starting maximum, and keeps the starting value
otherwise. -/
lemma chooseRuns_firstMax (rs : List (ℚ × ℕ)) : ∀ (m : ℚ) (M : ℕ),
    chooseRuns m M rs = if M < maxRunLen rs then firstMaxVal rs else m := by
  induction rs with
  | nil =>
    intro m M
    simp [chooseRuns, maxRunLen]
  | cons r rest ih =>
    intro m M
    obtain ⟨v, k⟩ := r
    have hmax : maxRunLen ((v, k) :: rest) = max k (maxRunLen rest) := rfl
    by_cases h1 : M < k
    · rw [show chooseRuns m M ((v, k) :: rest) = chooseRuns v k rest from by
        simp [chooseRuns, h1]]
      rw [ih]
      by_cases h2 : k < maxRunLen rest
      · rw [if_pos h2]
        have hM : M < maxRunLen ((v, k) :: rest) := by rw [hmax]; omega
        rw [if_pos hM]
        have hmr : maxRunLen ((v, k) :: rest) = maxRunLen rest := by rw [hmax]; omega
        unfold firstMaxVal
        rw [hmr, List.find?_cons_of_neg]
        simp
        omega
      · rw [if_neg h2]
        have hM : M < maxRunLen ((v, k) :: rest) := by rw [hmax]; omega
        rw [if_pos hM]
        have hmk : maxRunLen ((v, k) :: rest) = k := by rw [hmax]; omega
        unfold firstMaxVal
        rw [hmk, List.find?_cons_of_pos]
        · simp
        · simp
    · rw [show chooseRuns m M ((v, k) :: rest) = chooseRuns m M rest from by
        simp [chooseRuns, h1]]
      rw [ih]
      by_cases h2 : M < maxRunLen rest
      · rw [if_pos h2]
        have hM : M < maxRunLen ((v, k) :: rest) := by rw [hmax]; omega
        rw [if_pos hM]
        have hmr : maxRunLen ((v, k) :: rest) = maxRunLen rest := by rw [hmax]; omega
        unfold firstMaxVal
        rw [hmr, List.find?_cons_of_neg]
        simp
        omega
      · rw [if_neg h2]
        have hM : ¬ M < maxRunLen ((v, k) :: rest) := by rw [hmax]; omega
        rw [if_neg hM]

/-- Replay of the `findMode` scan at run level: with the current run
prepended to the runs of the remaining input, the scan state `(mode,
maxCount)` evolves exactly as the run fold, provided the current count has
not silently passed the kept maximum. -/
lemma modeLoop_chooseRuns (L : List ℚ) : ∀ (prev : ℚ) (cur : ℕ) (mode : ℚ) (maxC : ℕ),
    1 ≤ cur → cur ≤ maxC →
    (modeLoop prev cur mode maxC L).1 = chooseRuns mode maxC (consRunK prev cur (runs L)) := by
  induction L with
  | nil =>
    intro prev cur mode maxC h1 h2
    simp [modeLoop, runs, consRunK, chooseRuns, Nat.not_lt.mpr h2]
  | cons x xs ih =>
    intro prev cur mode maxC h1 h2
    by_cases hxp : x = prev
    · subst hxp
      rw [runs_cons, consRunK_merge]
      by_cases hgt : maxC < cur + 1
      · rw [show (modeLoop x cur mode maxC (x :: xs)).1 =
            (modeLoop x (cur + 1) x (cur + 1) xs).1 from by simp [modeLoop, hgt]]
        rw [ih x (cur + 1) x (cur + 1) (by omega) (le_refl _)]
        exact (chooseRuns_enter mode maxC x (cur + 1) (runs xs) hgt).symm
      · rw [show (modeLoop x cur mode maxC (x :: xs)).1 =
            (modeLoop x (cur + 1) mode maxC xs).1 from by simp [modeLoop, hgt]]
        exact ih x (cur + 1) mode maxC (by omega) (by omega)
    · rw [runs_cons, consRunK_ne prev x (fun he => hxp he.symm) cur (runs xs)]
      rw [show (modeLoop prev cur mode maxC (x :: xs)).1 =
          (modeLoop x 1 mode maxC xs).1 from by simp [modeLoop, hxp]]
      rw [ih x 1 mode maxC (le_refl 1) (le_trans h1 h2)]
      simp [chooseRuns, Nat.not_lt.mpr h2]

/-- The runs of a nonempty list start with a run of the head value, of
positive length. -/
lemma runs_head (y : ℚ) (ys : List ℚ) :
    ∃ k rest, runs (y :: ys) = (y, k) :: rest ∧ 1 ≤ k := by
  rw [runs_cons]
  cases hr : runs ys with
  | nil => exact ⟨1, [], by simp [consRunK], le_refl 1⟩
  | cons r rest =>
    obtain ⟨v, k⟩ := r
    by_cases hyv : y = v
    · subst hyv
      exact ⟨1 + k, rest, by simp [consRunK], by omega⟩
    · exact ⟨1, (v, k) :: rest, by simp [consRunK, hyv], le_refl 1⟩

/-- C3: for every nonempty number list, the mode computed by the scan equals
the value of the first (earliest in sorted order) run of maximal length
among the consecutive equal-value runs of the ascending sorted copy — ties
keep the earlier run; and on the example input `1,1,2,2,2,3` the mode is 2. -/
theorem findMode_firstMaxRun :
    (∀ xs : List ℚ, xs ≠ [] → findMode xs = specMode xs) ∧
    findMode (parseState "1,1,2,2,2,3").numbers = 2 := by
  constructor
  · intro xs hne
    cases hs : sortAsc xs with
    | nil =>
      have := sortAsc_length xs
      rw [hs] at this
      exact absurd (List.length_eq_zero.mp this.symm) hne
    | cons y ys =>
      unfold findMode specMode
      rw [hs]
      show (modeLoop y 1 y 1 ys).1 = firstMaxVal (runs (y :: ys))
      rw [modeLoop_chooseRuns ys y 1 y 1 (le_refl 1) (le_refl 1)]
      rw [← runs_cons, chooseRuns_firstMax]
      by_cases h : 1 < maxRunLen (runs (y :: ys))
      · rw [if_pos h]
      · rw [if_neg h]
        obtain ⟨k, rest, hre, hk⟩ := runs_head y ys
        rw [hre] at h ⊢
        have hkle : k ≤ maxRunLen ((y, k) :: rest) := Nat.le_max_left _ _
        have hmax1 : maxRunLen ((y, k) :: rest) = k := by omega
        have hk1 : k = 1 := by omega
        unfold firstMaxVal
        rw [hmax1, hk1, List.find?_cons_of_pos]
        · simp
        · simp
  · have hp : (parseState "1,1,2,2,2,3").numbers = [1, 1, 2, 2, 2, 3] := by decide
    rw [hp]
    decide

/-- C3 witness: the general run characterisation applied to the concrete
list `[1, 2, 2]`, whose first maximal run is the run of 2s. -/
theorem findMode_firstMaxRun_witness : findMode [1, 2, 2] = specMode [1, 2, 2] :=
  findMode_firstMaxRun.1 [1, 2, 2] (by decide)
